import Mathlib

/-!
Shallow embedding of the memory-record lifecycle manager
(`src/packages/core/src/memory.ts`, class `MemoryManager`).

Modelling choices:
- JavaScript runtime values that flow through the metadata validator are
  modelled by `JSValue` (null, string, number, boolean, array); truthiness
  follows the JavaScript rules.  Metadata fields are `Option JSValue`, with
  `none` standing for an absent (`undefined`) field.
- `UUID` is opaque (the TypeScript `UUID` template-literal type only admits
  dash-separated non-empty strings, so a present `UUID` is always truthy).
- Embedding vectors are opaque lists of integers (`Vec`); the Embedder
  (`runtime.useModel(ModelClass.TEXT_EMBEDDING, input)`) is a parameter
  `embed : Option String → Except String Vec`, where `none` is the `null`
  input of the fallback path.
- The Store (database adapter) is a list of `(table, Memory)` pairs;
  `dbGetMemoryById` looks a record up by id across tables, as the adapter's
  `getMemoryById(id)` does.
- Fallible operations return `Except String`; `Date.now()` is an explicit
  `now` parameter.  Calls made to the Embedder and to the Store's create are
  recorded in the result so that "no call was made" is a provable statement.
-/

namespace MemorySpec

/-- A JavaScript runtime value, as far as the metadata validator observes it.
Arrays carry strings because `tags` is typed `string[]`; the validator only
tests `Array.isArray`. -/
inductive JSValue where
  | jnull : JSValue
  | jstr : String → JSValue
  | jnum : Int → JSValue
  | jbool : Bool → JSValue
  | jarr : List String → JSValue
  deriving Repr, DecidableEq

/-- JavaScript truthiness of a value. -/
def JSValue.truthy : JSValue → Bool
  | .jnull => false
  | .jstr s => decide (s ≠ "")
  | .jnum n => decide (n ≠ 0)
  | .jbool b => b
  | .jarr _ => true

/-- `typeof v === 'string'`. -/
def JSValue.isString : JSValue → Bool
  | .jstr _ => true
  | _ => false

/-- `typeof v === 'number'`. -/
def JSValue.isNumber : JSValue → Bool
  | .jnum _ => true
  | _ => false

/-- `Array.isArray(v)`. -/
def JSValue.isArray : JSValue → Bool
  | .jarr _ => true
  | _ => false

/-- Truthiness of a possibly absent field: `undefined` is falsy. -/
def optTruthy : Option JSValue → Bool
  | none => false
  | some v => v.truthy

/-- A possibly absent field holds a string. -/
def optIsString : Option JSValue → Bool
  | none => false
  | some v => v.isString

/-- A possibly absent field holds a number. -/
def optIsNumber : Option JSValue → Bool
  | none => false
  | some v => v.isNumber

/-- A possibly absent field holds an array. -/
def optIsArray : Option JSValue → Bool
  | none => false
  | some v => v.isArray

/-- The closed set of memory types from `validateMetadata`. -/
def memoryTypes : List String := ["document", "fragment", "message", "fact"]

/-- The closed set of scopes from `validateMetadata`. -/
def scopes : List String := ["shared", "private", "room"]

/-- `["document","fragment","message","fact"].includes(v)`: membership only
holds for one of the four strings. -/
def typeMember : Option JSValue → Bool
  | some (.jstr s) => memoryTypes.contains s
  | _ => false

/-- `['shared','private','room'].includes(v)`. -/
def scopeMember : Option JSValue → Bool
  | some (.jstr s) => scopes.contains s
  | _ => false

/-- `KnowledgeMetadata`: structured classification of a Memory.  Every field
is a runtime value or absent (`undefined`). -/
structure KnowledgeMetadata where
  type : Option JSValue
  sourceId : Option JSValue
  chunkIndex : Option JSValue
  source : Option JSValue
  scope : Option JSValue
  tags : Option JSValue
  timestamp : Option JSValue
  deriving Repr, DecidableEq

/-- `MemoryManager.validateMetadata` (memory.ts lines 40-70), literally:
each guard mirrors the source's truthiness / `!== undefined` / `typeof`
checks, in order. -/
def validateMetadata (metadata : KnowledgeMetadata) : Except String Unit :=
  if !(optTruthy metadata.type) || !(typeMember metadata.type) then
    Except.error "Invalid memory type"
  else if optTruthy metadata.sourceId && !(optIsString metadata.sourceId) then
    Except.error "Metadata sourceId must be a UUID string"
  else if metadata.chunkIndex.isSome && !(optIsNumber metadata.chunkIndex) then
    Except.error "Metadata chunkIndex must be a number"
  else if optTruthy metadata.source && !(optIsString metadata.source) then
    Except.error "Metadata source must be a string"
  else if optTruthy metadata.scope && !(scopeMember metadata.scope) then
    Except.error "Metadata scope must be shared, private, or room"
  else if optTruthy metadata.tags && !(optIsArray metadata.tags) then
    Except.error "Metadata tags must be an array of strings"
  else
    Except.ok ()

/-- Opaque identifier; the TypeScript `UUID` type admits only dash-separated
strings, hence a present `UUID` is never the empty string and is truthy. -/
abbrev UUID := Nat

/-- An embedding vector (`number[]`), opaque to this core. -/
abbrev Vec := List Int

/-- `Content`: raw text plus optional metadata. -/
structure Content where
  text : String
  metadata : Option KnowledgeMetadata
  deriving Repr, DecidableEq

/-- `Memory`: a content unit bound to a conversational context. -/
structure Memory where
  id : UUID
  agentId : Option UUID
  roomId : UUID
  content : Content
  embedding : Option Vec
  deriving Repr, DecidableEq

/-- The Embedder capability: `useModel(ModelClass.TEXT_EMBEDDING, input)`;
`none` is the `null` input. -/
abbrev Embedder := Option String → Except String Vec

/-- `MemoryManager.addEmbeddingToMemory` (memory.ts lines 86-111).  The
second component of a successful result records the inputs passed to the
Embedder, in order. -/
def addEmbeddingToMemory (embed : Embedder) (memory : Memory) :
    Except String (Memory × List (Option String)) :=
  match memory.embedding with
  | some _ => Except.ok (memory, [])
  | none =>
    let memoryText := memory.content.text
    if memoryText = "" then
      Except.error "Cannot generate embedding: Memory content is empty"
    else
      match embed (some memoryText) with
      | Except.ok v => Except.ok ({ memory with embedding := some v }, [some memoryText])
      | Except.error _ =>
        match embed none with
        | Except.ok v =>
          Except.ok ({ memory with embedding := some v }, [some memoryText, none])
        | Except.error e => Except.error e

/-- The Store's state: persisted records, each under the table it was
created in. -/
abbrev StoreState := List (String × Memory)

/-- `databaseAdapter.getMemoryById(id)`: looks a record up by id, across
tables. -/
def dbGetMemoryById (store : StoreState) (id : UUID) : Option Memory :=
  (store.find? (fun e => e.2.id == id)).map (·.2)

/-- `databaseAdapter.createMemory(memory, tableName, unique)`: the Store
persists the record under the given table. -/
def dbCreateMemory (store : StoreState) (memory : Memory) (tableName : String) : StoreState :=
  (tableName, memory) :: store

/-- `MemoryManager.getTableNameForType` (memory.ts lines 257-269): the
`switch` on the metadata type, with fallthrough of `document`/`fragment`. -/
def getTableNameForType (tableName : String) (type : Option JSValue) : String :=
  if type = some (JSValue.jstr "document") ∨ type = some (JSValue.jstr "fragment") then
    "knowledge"
  else if type = some (JSValue.jstr "message") then "messages"
  else if type = some (JSValue.jstr "fact") then "facts"
  else tableName

/-- Metadata synthesized by `createMemory` when `content.metadata` is absent
(memory.ts lines 211-218). -/
def defaultMetadata (tableName : String) (memory : Memory) (now : Int) : KnowledgeMetadata :=
  { type := some (.jstr (if tableName = "knowledge" then "document" else "message"))
    sourceId := none
    chunkIndex := none
    source := some (.jstr tableName)
    scope := some (.jstr (if memory.agentId.isSome then "private" else "shared"))
    tags := none
    timestamp := some (.jnum now) }

/-- `if (!memory.content.metadata.timestamp) ... = Date.now()` (memory.ts
lines 226-228): the guard is a truthiness test. -/
def ensureTimestamp (now : Int) (md : KnowledgeMetadata) : KnowledgeMetadata :=
  if !(optTruthy md.timestamp) then { md with timestamp := some (.jnum now) } else md

/-- `if (!memory.content.metadata.scope) ...` (memory.ts lines 231-233). -/
def ensureScope (memory : Memory) (md : KnowledgeMetadata) : KnowledgeMetadata :=
  if !(optTruthy md.scope) then
    { md with scope := some (.jstr (if memory.agentId.isSome then "private" else "shared")) }
  else md

/-- `if (!memory.content.metadata.source) ...` (memory.ts lines 236-238). -/
def ensureSource (tableName : String) (md : KnowledgeMetadata) : KnowledgeMetadata :=
  if !(optTruthy md.source) then { md with source := some (.jstr tableName) } else md

/-- The backfill of `timestamp`, `scope`, `source` after validation
(memory.ts lines 225-238), in source order. -/
def backfillMetadata (tableName : String) (memory : Memory) (now : Int)
    (md : KnowledgeMetadata) : KnowledgeMetadata :=
  ensureSource tableName (ensureScope memory (ensureTimestamp now md))

/-- The metadata value that enters validation: the caller's metadata when
present, the synthesized default otherwise (memory.ts lines 211-218). -/
def initialMetadata (tableName : String) (memory : Memory) (now : Int) : KnowledgeMetadata :=
  match memory.content.metadata with
  | none => defaultMetadata tableName memory now
  | some md => md

/-- The metadata value carried by the record handed to the Store's create:
the initial metadata after the backfill. -/
def finalMetadata (tableName : String) (memory : Memory) (now : Int) : KnowledgeMetadata :=
  backfillMetadata tableName memory now (initialMetadata tableName memory now)

/-- Result of a `createMemory` call: the Store afterwards, the create calls
issued to the Store (record, table, unique flag), and the inputs passed to
the Embedder. -/
structure CreateResult where
  store : StoreState
  createCalls : List (Memory × String × Bool)
  embedCalls : List (Option String)
  deriving Repr, DecidableEq

/-- `MemoryManager.createMemory` (memory.ts lines 202-252): duplicate check,
metadata synthesis when absent, validation, backfill, embedding of the
`null` input when no embedding is present, then the Store create routed by
`getTableNameForType`. -/
def createMemoryModel (tableName : String) (embed : Embedder) (now : Int)
    (store : StoreState) (memory : Memory) (unique : Bool) :
    Except String CreateResult :=
  match dbGetMemoryById store memory.id with
  | some _ => Except.ok ⟨store, [], []⟩
  | none =>
    match validateMetadata (initialMetadata tableName memory now) with
    | Except.error e => Except.error e
    | Except.ok _ =>
      let md1 := finalMetadata tableName memory now
      let memory1 : Memory :=
        { memory with content := { memory.content with metadata := some md1 } }
      let table := getTableNameForType tableName md1.type
      match memory1.embedding with
      | some _ =>
        Except.ok ⟨dbCreateMemory store memory1 table, [(memory1, table, unique)], []⟩
      | none =>
        match embed none with
        | Except.error e => Except.error e
        | Except.ok v =>
          let memory2 : Memory := { memory1 with embedding := some v }
          Except.ok ⟨dbCreateMemory store memory2 table, [(memory2, table, unique)], [none]⟩

/-- The record handed to the Store's create on a successful non-duplicate
call: the input memory with the final metadata attached and embedding
`emb`. -/
def persistedMemory (tableName : String) (memory : Memory) (now : Int) (emb : Vec) : Memory :=
  { memory with
      content := { memory.content with metadata := some (finalMetadata tableName memory now) }
      embedding := some emb }

/-- `MemoryManager.getMemoryById` (memory.ts lines 280-284): the Store
lookup followed by the ownership filter `result.agentId !== runtime.agentId`
(`undefined` on the record side never equals a present runtime identity). -/
def getMemoryByIdModel (runtimeAgentId : UUID) (store : StoreState) (id : UUID) :
    Option Memory :=
  match dbGetMemoryById store id with
  | none => none
  | some result =>
    if result.agentId ≠ some runtimeAgentId then none else some result

/-! ### Concrete fixtures used by witnesses and counterexamples -/

/-- An Embedder that distinguishes the text input from the `null` input. -/
def embedSplit : Embedder := fun input =>
  match input with
  | some _ => Except.ok [1]
  | none => Except.ok [0]

/-- An Embedder that always succeeds with a fixed vector. -/
def embedConst : Embedder := fun _ => Except.ok [0, 0]

/-- An Embedder that fails on text and succeeds on the `null` input. -/
def embedFlaky : Embedder := fun input =>
  match input with
  | some _ => Except.error "embedding service down"
  | none => Except.ok [0, 0, 0]

/-- A stored, agent-owned record. -/
def memStored : Memory := ⟨1, some 10, 2, ⟨"hello", none⟩, some [1, 2]⟩

/-- A stored record with no `agentId` (shared content). -/
def memShared : Memory := ⟨4, none, 2, ⟨"shared text", none⟩, some [3]⟩

/-- A Store holding `memStored` and `memShared`. -/
def storeTwo : StoreState := [("messages", memStored), ("messages", memShared)]

/-- A fresh memory reusing `memStored`'s id with different content. -/
def memDup : Memory := ⟨1, none, 3, ⟨"other text", none⟩, none⟩

/-- A fresh memory with no metadata and no embedding. -/
def memFresh : Memory := ⟨7, none, 2, ⟨"hello", none⟩, none⟩

/-! ### C2 — duplicate creation is a successful no-op -/

/-- C2: for every memory whose id already names a stored record, a second
`createMemory` call (with any content) returns successfully, issues no
Store create and no Embedder call, and leaves the Store unchanged — so the
existing record under that id remains, never overwritten. -/
theorem createMemory_idempotent (tableName : String) (embed : Embedder) (now : Int)
    (store : StoreState) (memory : Memory) (unique : Bool) (r : Memory)
    (h : dbGetMemoryById store memory.id = some r) :
    createMemoryModel tableName embed now store memory unique =
      Except.ok ⟨store, [], []⟩ := by
  unfold createMemoryModel
  rw [h]

/-- C2 witness: re-creating id 1 (already held by `storeTwo` as `memStored`)
with different content succeeds and leaves the Store unchanged. -/
theorem createMemory_idempotent_witness :
    dbGetMemoryById storeTwo memDup.id = some memStored ∧
    createMemoryModel "messages" embedConst 5 storeTwo memDup true =
      Except.ok ⟨storeTwo, [], []⟩ :=
  ⟨rfl, createMemory_idempotent "messages" embedConst 5 storeTwo memDup true memStored rfl⟩

/-! ### C5 — ownership filter on fetch by id -/

/-- C5: when the Store holds a record under the requested id, `getMemoryById`
returns absent if the record's `agentId` differs from the runtime's own
agent identity, and returns the record unchanged if it matches. -/
theorem getMemoryById_ownership (runtimeAgentId : UUID) (store : StoreState) (id : UUID)
    (r : Memory) (h : dbGetMemoryById store id = some r) :
    (r.agentId ≠ some runtimeAgentId →
      getMemoryByIdModel runtimeAgentId store id = none) ∧
    (r.agentId = some runtimeAgentId →
      getMemoryByIdModel runtimeAgentId store id = some r) := by
  unfold getMemoryByIdModel
  rw [h]
  constructor
  · intro hne
    simp [hne]
  · intro ha
    simp [ha]

/-- C5 witness: `memStored` (owned by agent 10) is hidden from runtime 11
and returned unchanged to runtime 10. -/
theorem getMemoryById_ownership_witness :
    getMemoryByIdModel 11 storeTwo 1 = none ∧
    getMemoryByIdModel 10 storeTwo 1 = some memStored :=
  ⟨(getMemoryById_ownership 11 storeTwo 1 memStored rfl).1 (by decide),
   (getMemoryById_ownership 10 storeTwo 1 memStored rfl).2 rfl⟩

/-! ### C10 — records without agentId are unreachable by id lookup -/

/-- C10: a stored record whose `agentId` is absent is never returned by
`getMemoryById`: the strict-inequality ownership filter compares `undefined`
against the runtime's (always defined) identity and hides the record. -/
theorem getMemoryById_hides_shared (runtimeAgentId : UUID) (store : StoreState)
    (id : UUID) (r : Memory) (h : dbGetMemoryById store id = some r)
    (ha : r.agentId = none) :
    getMemoryByIdModel runtimeAgentId store id = none := by
  unfold getMemoryByIdModel
  rw [h]
  simp [ha]

/-- C10 witness: the shared record `memShared` (no agentId) is in the Store
yet id lookup by runtime 10 returns absent. -/
theorem getMemoryById_hides_shared_witness :
    dbGetMemoryById storeTwo 4 = some memShared ∧
    getMemoryByIdModel 10 storeTwo 4 = none :=
  ⟨rfl, getMemoryById_hides_shared 10 storeTwo 4 memShared rfl rfl⟩

/-! ### C9 — embeddings are immutable once set -/

/-- C9: a memory whose embedding is already set is returned unchanged by
`addEmbeddingToMemory`, with no Embedder call. -/
theorem addEmbedding_immutable (embed : Embedder) (memory : Memory) (v : Vec)
    (h : memory.embedding = some v) :
    addEmbeddingToMemory embed memory = Except.ok (memory, []) := by
  unfold addEmbeddingToMemory
  rw [h]

/-- C9 witness: `memStored` already carries an embedding and passes through
unchanged. -/
theorem addEmbedding_immutable_witness :
    addEmbeddingToMemory embedFlaky memStored = Except.ok (memStored, []) :=
  addEmbedding_immutable embedFlaky memStored [1, 2] rfl

/-! ### C8 — Embedder failure falls back to the null-input vector -/

/-- C8: when the memory has no embedding and non-empty text and the Embedder
fails on the text, `addEmbeddingToMemory` retries exactly once with the
`null` input and returns the fallback vector successfully: the Embedder
error is not propagated. -/
theorem addEmbedding_fallback (embed : Embedder) (memory : Memory) (e : String) (v : Vec)
    (h0 : memory.embedding = none)
    (h1 : memory.content.text ≠ "")
    (h2 : embed (some memory.content.text) = Except.error e)
    (h3 : embed none = Except.ok v) :
    addEmbeddingToMemory embed memory =
      Except.ok ({ memory with embedding := some v }, [some memory.content.text, none]) := by
  unfold addEmbeddingToMemory
  rw [h0]
  simp only [if_neg h1, h2, h3]

/-- C8 witness: `embedFlaky` fails on the text of `memFresh`; the call still
succeeds with the null-input vector after exactly one retry. -/
theorem addEmbedding_fallback_witness :
    addEmbeddingToMemory embedFlaky memFresh =
      Except.ok ({ memFresh with embedding := some [0, 0, 0] }, [some "hello", none]) :=
  addEmbedding_fallback embedFlaky memFresh "embedding service down" [0, 0, 0]
    rfl (by decide) rfl rfl

/-! ### C3 — exact error condition of the metadata validator -/

/-- The error condition exactly as the spec words it: each optional field
errs when it is *present* (in the `undefined`-vs-value sense) and of the
wrong shape.  Stated for comparison with `validateMetadata`. -/
def claimedViolation (m : KnowledgeMetadata) : Bool :=
  (!(typeMember m.type)) ||
  (m.sourceId.isSome && !(optIsString m.sourceId)) ||
  (m.chunkIndex.isSome && !(optIsNumber m.chunkIndex)) ||
  (m.source.isSome && !(optIsString m.source)) ||
  (m.scope.isSome && !(scopeMember m.scope)) ||
  (m.tags.isSome && !(optIsArray m.tags))

/-- The error condition the code actually implements: `sourceId`, `source`,
`scope` and `tags` are only checked when their value is truthy (a present
but falsy value — `null`, `0`, `''`, `false` — is skipped); `chunkIndex` is
checked whenever it is not `undefined`. -/
def amendedViolation (m : KnowledgeMetadata) : Bool :=
  (!(typeMember m.type)) ||
  (optTruthy m.sourceId && !(optIsString m.sourceId)) ||
  (m.chunkIndex.isSome && !(optIsNumber m.chunkIndex)) ||
  (optTruthy m.source && !(optIsString m.source)) ||
  (optTruthy m.scope && !(scopeMember m.scope)) ||
  (optTruthy m.tags && !(optIsArray m.tags))

/-- A field naming one of the four memory types is truthy (none of the four
strings is empty). -/
theorem typeMember_truthy (o : Option JSValue) (h : typeMember o = true) :
    optTruthy o = true := by
  match o with
  | some (.jstr s) =>
    have hmem : s ∈ memoryTypes :=
      List.mem_of_elem_eq_true (by simpa [typeMember, List.contains] using h)
    have hs : s = "document" ∨ s = "fragment" ∨ s = "message" ∨ s = "fact" := by
      simpa [memoryTypes] using hmem
    rcases hs with h1 | h1 | h1 | h1 <;> subst h1 <;> decide
  | none => simp [typeMember] at h
  | some .jnull => simp [typeMember] at h
  | some (.jnum n) => simp [typeMember] at h
  | some (.jbool b) => simp [typeMember] at h
  | some (.jarr xs) => simp [typeMember] at h

/-- A metadata with `type: "fact"` and the numeric (falsy) value `0` as
`sourceId`: present and not a string, so the claimed condition holds, yet
the validator accepts it. -/
def mdFalsySourceId : KnowledgeMetadata :=
  ⟨some (.jstr "fact"), some (.jnum 0), none, none, none, none, none⟩

/-- C3 counterexample: `mdFalsySourceId` violates the claimed condition
(`sourceId` present and not a string) but `validateMetadata` returns
without error, refuting the claimed "if and only if". -/
theorem validateMetadata_claim_false :
    claimedViolation mdFalsySourceId = true ∧
    validateMetadata mdFalsySourceId = Except.ok () :=
  ⟨rfl, rfl⟩

/-- C3 (amended): the validator returns without error exactly when the
amended condition fails — the spec's conditions with "present" read as
"present with a truthy value" for `sourceId`, `source`, `scope`, `tags`,
and as "not undefined" for `chunkIndex`. -/
theorem validateMetadata_iff (m : KnowledgeMetadata) :
    validateMetadata m = Except.ok () ↔ amendedViolation m = false := by
  have hty := typeMember_truthy m.type
  unfold validateMetadata amendedViolation
  split_ifs with h1 h2 h3 h4 h5 h6
  · have ht2 : typeMember m.type = false := by
      by_contra hc
      have ht2 : typeMember m.type = true := by simpa using hc
      rw [hty ht2, ht2] at h1
      simp at h1
    simp [ht2]
  · simp [h2]
  · simp [h3]
  · simp [h4]
  · simp [h5]
  · simp [h6]
  · have ht2 : typeMember m.type = true := by
      by_contra hc
      have ht2 : typeMember m.type = false := by simpa using hc
      rw [ht2] at h1
      simp at h1
    simp only [Bool.not_eq_true] at h2 h3 h4 h5 h6
    simp [ht2, h2, h3, h4, h5, h6]

/-- A fully valid metadata value with every field supplied and truthy. -/
def mdAllTruthy : KnowledgeMetadata :=
  ⟨some (.jstr "fact"), some (.jstr "sid"), some (.jnum 3), some (.jstr "src"),
   some (.jstr "room"), some (.jarr ["a"]), some (.jnum 11)⟩

/-- C3 witness: the amended equivalence instantiated on `mdAllTruthy`,
whose validation succeeds. -/
theorem validateMetadata_iff_witness :
    validateMetadata mdAllTruthy = Except.ok () :=
  (validateMetadata_iff mdAllTruthy).mpr (by decide)

/-! ### Frame lemmas for the metadata backfill -/

/-- The backfill never touches `type`. -/
theorem backfill_type (t : String) (m : Memory) (n : Int) (md : KnowledgeMetadata) :
    (backfillMetadata t m n md).type = md.type := by
  unfold backfillMetadata ensureSource ensureScope ensureTimestamp
  split_ifs <;> rfl

/-- The backfill never touches `sourceId`. -/
theorem backfill_sourceId (t : String) (m : Memory) (n : Int) (md : KnowledgeMetadata) :
    (backfillMetadata t m n md).sourceId = md.sourceId := by
  unfold backfillMetadata ensureSource ensureScope ensureTimestamp
  split_ifs <;> rfl

/-- The backfill never touches `chunkIndex`. -/
theorem backfill_chunkIndex (t : String) (m : Memory) (n : Int) (md : KnowledgeMetadata) :
    (backfillMetadata t m n md).chunkIndex = md.chunkIndex := by
  unfold backfillMetadata ensureSource ensureScope ensureTimestamp
  split_ifs <;> rfl

/-- The backfill never touches `tags`. -/
theorem backfill_tags (t : String) (m : Memory) (n : Int) (md : KnowledgeMetadata) :
    (backfillMetadata t m n md).tags = md.tags := by
  unfold backfillMetadata ensureSource ensureScope ensureTimestamp
  split_ifs <;> rfl

/-- `timestamp` after the backfill: kept when truthy, else `now`. -/
theorem backfill_timestamp (t : String) (m : Memory) (n : Int) (md : KnowledgeMetadata) :
    (backfillMetadata t m n md).timestamp =
      (if optTruthy md.timestamp then md.timestamp else some (.jnum n)) := by
  unfold backfillMetadata ensureSource ensureScope ensureTimestamp
  split_ifs <;> simp_all

/-- `scope` after the backfill: kept when truthy, else derived from
`agentId`. -/
theorem backfill_scope (t : String) (m : Memory) (n : Int) (md : KnowledgeMetadata) :
    (backfillMetadata t m n md).scope =
      (if optTruthy md.scope then md.scope
       else some (.jstr (if m.agentId.isSome then "private" else "shared"))) := by
  unfold backfillMetadata ensureSource ensureScope ensureTimestamp
  split_ifs <;> simp_all

/-- `source` after the backfill: kept when truthy, else the manager's
partition name. -/
theorem backfill_source (t : String) (m : Memory) (n : Int) (md : KnowledgeMetadata) :
    (backfillMetadata t m n md).source =
      (if optTruthy md.source then md.source else some (.jstr t)) := by
  unfold backfillMetadata ensureSource ensureScope ensureTimestamp
  split_ifs <;> simp_all

/-- The synthesized default metadata passes the backfill unchanged (every
default is either truthy or re-filled with the same value). -/
theorem backfillMetadata_default (t : String) (m : Memory) (n : Int) :
    backfillMetadata t m n (defaultMetadata t m n) = defaultMetadata t m n := by
  unfold backfillMetadata ensureSource ensureScope ensureTimestamp defaultMetadata
  split_ifs <;> simp_all [optTruthy, JSValue.truthy]

/-! ### Characterization of successful non-duplicate creates -/

/-- A successful non-duplicate `createMemory` call validated the initial
metadata, issued exactly one Store create — the input memory carrying the
final metadata and some embedding `emb`, routed by `getTableNameForType` —
and made an Embedder call iff the memory had no embedding. -/
theorem createMemoryModel_ok_char (tableName : String) (embed : Embedder) (now : Int)
    (store : StoreState) (memory : Memory) (unique : Bool) (r : CreateResult)
    (hdup : dbGetMemoryById store memory.id = none)
    (hok : createMemoryModel tableName embed now store memory unique = Except.ok r) :
    validateMetadata (initialMetadata tableName memory now) = Except.ok () ∧
    ∃ emb : Vec,
      ((memory.embedding = some emb ∧ r.embedCalls = []) ∨
        (memory.embedding = none ∧ embed none = Except.ok emb ∧ r.embedCalls = [none])) ∧
      r.createCalls = [(persistedMemory tableName memory now emb,
        getTableNameForType tableName (finalMetadata tableName memory now).type, unique)] ∧
      r.store = dbCreateMemory store (persistedMemory tableName memory now emb)
        (getTableNameForType tableName (finalMetadata tableName memory now).type) := by
  unfold createMemoryModel at hok
  rw [hdup] at hok
  rcases hval : validateMetadata (initialMetadata tableName memory now) with e | u
  · rw [hval] at hok
    simp at hok
  · rw [hval] at hok
    refine ⟨rfl, ?_⟩
    rcases hemb : memory.embedding with _ | v
    · simp only [hemb] at hok
      rcases hen : embed none with e | v
      · rw [hen] at hok
        simp at hok
      · rw [hen] at hok
        simp only [Except.ok.injEq] at hok
        subst hok
        exact ⟨v, Or.inr ⟨rfl, rfl, rfl⟩, rfl, rfl⟩
    · simp only [hemb] at hok
      simp only [Except.ok.injEq] at hok
      subst hok
      exact ⟨v, Or.inl ⟨rfl, rfl⟩, rfl, rfl⟩

/-! ### C1 — which input the Embedder receives during createMemory -/

/-- C1 counterexample: on a fresh memory with text `"hello"` and no
embedding, the Embedder maps the text to `[1]` and the `null` input to
`[0]`; the record handed to the Store's create carries `[0]`, not the
vector obtained from the text. -/
theorem createMemory_embedding_not_from_text :
    embedSplit (some memFresh.content.text) = Except.ok [1] ∧
    (createMemoryModel "messages" embedSplit 9 [] memFresh false).toOption.map
        (fun r => r.createCalls.map fun c => c.1.embedding) = some [some [0]] ∧
    (some ([0] : Vec) : Option Vec) ≠ some [1] :=
  ⟨rfl, rfl, by decide⟩

/-- C1 (amended): for every non-duplicate memory with no embedding,
`createMemory` invokes the Embedder exactly once, with the `null` input
(`addEmbeddingToMemory` is not run and `content.text` is not consulted),
and the record handed to the Store's create carries that fallback vector. -/
theorem createMemory_embeds_null_input (tableName : String) (embed : Embedder) (now : Int)
    (store : StoreState) (memory : Memory) (unique : Bool) (r : CreateResult) (v : Vec)
    (hdup : dbGetMemoryById store memory.id = none)
    (hemb : memory.embedding = none)
    (hv : embed none = Except.ok v)
    (hok : createMemoryModel tableName embed now store memory unique = Except.ok r) :
    r.embedCalls = [none] ∧ (r.createCalls.map fun c => c.1.embedding) = [some v] := by
  obtain ⟨hval, emb, hcase, hcalls, hst⟩ :=
    createMemoryModel_ok_char tableName embed now store memory unique r hdup hok
  rcases hcase with ⟨h1, h2⟩ | ⟨h1, h2, h3⟩
  · rw [hemb] at h1
    exact absurd h1 (by simp)
  · rw [h2] at hv
    simp only [Except.ok.injEq] at hv
    subst hv
    refine ⟨h3, ?_⟩
    rw [hcalls]
    simp [persistedMemory]

/-- The final metadata `createMemory` attaches to `memFresh` under the
`messages` partition at time 9. -/
def mdFreshFinal : KnowledgeMetadata :=
  ⟨some (.jstr "message"), none, none, some (.jstr "messages"), some (.jstr "shared"),
   none, some (.jnum 9)⟩

/-- The record `createMemory` persists for `memFresh`. -/
def memFreshStored : Memory := ⟨7, none, 2, ⟨"hello", some mdFreshFinal⟩, some [0]⟩

/-- The result of `createMemory` on `memFresh` with `embedSplit`. -/
def rFresh : CreateResult :=
  ⟨[("messages", memFreshStored)], [(memFreshStored, "messages", false)], [none]⟩

/-- C1 witness: the amended statement at `memFresh`/`embedSplit`. -/
theorem createMemory_embeds_null_input_witness :
    rFresh.embedCalls = [none] ∧
    (rFresh.createCalls.map fun c => c.1.embedding) = [some [0]] :=
  createMemory_embeds_null_input "messages" embedSplit 9 [] memFresh false rFresh [0]
    rfl rfl rfl rfl

/-! ### C6 — synthesized metadata when content.metadata is absent -/

/-- C6: for every non-duplicate memory created with `content.metadata`
absent, the persisted record carries exactly the synthesized metadata:
`type` from the partition, `source` the partition name, `scope` from
`agentId` presence, `timestamp = now`, every other field absent. -/
theorem createMemory_synthesizes_metadata (tableName : String) (embed : Embedder) (now : Int)
    (store : StoreState) (memory : Memory) (unique : Bool) (r : CreateResult)
    (hmd : memory.content.metadata = none)
    (hdup : dbGetMemoryById store memory.id = none)
    (hok : createMemoryModel tableName embed now store memory unique = Except.ok r) :
    (r.createCalls.map fun c => c.1.content.metadata) =
      [some { type := some (.jstr (if tableName = "knowledge" then "document" else "message"))
              sourceId := none
              chunkIndex := none
              source := some (.jstr tableName)
              scope := some (.jstr (if memory.agentId.isSome then "private" else "shared"))
              tags := none
              timestamp := some (.jnum now) }] := by
  obtain ⟨hval, emb, hcase, hcalls, hst⟩ :=
    createMemoryModel_ok_char tableName embed now store memory unique r hdup hok
  have hinit : initialMetadata tableName memory now = defaultMetadata tableName memory now := by
    unfold initialMetadata
    rw [hmd]
  rw [hcalls]
  simp only [List.map_cons, List.map_nil, persistedMemory]
  rw [finalMetadata, hinit, backfillMetadata_default]
  rfl

/-- A fresh agent-owned memory with no metadata, created under the
`knowledge` partition. -/
def memKnow : Memory := ⟨3, some 10, 2, ⟨"doc", none⟩, none⟩

/-- The metadata `createMemory` synthesizes for `memKnow`. -/
def mdKnowFinal : KnowledgeMetadata :=
  ⟨some (.jstr "document"), none, none, some (.jstr "knowledge"), some (.jstr "private"),
   none, some (.jnum 9)⟩

/-- The record `createMemory` persists for `memKnow`. -/
def memKnowStored : Memory := ⟨3, some 10, 2, ⟨"doc", some mdKnowFinal⟩, some [0, 0]⟩

/-- The result of `createMemory` on `memKnow`. -/
def rKnow : CreateResult :=
  ⟨[("knowledge", memKnowStored)], [(memKnowStored, "knowledge", false)], [none]⟩

/-- C6 witness: the synthesized metadata at `memKnow` under `knowledge`. -/
theorem createMemory_synthesizes_metadata_witness :
    (rKnow.createCalls.map fun c => c.1.content.metadata) =
      [some { type := some (.jstr (if "knowledge" = "knowledge" then "document" else "message"))
              sourceId := none
              chunkIndex := none
              source := some (.jstr "knowledge")
              scope := some (.jstr (if memKnow.agentId.isSome then "private" else "shared"))
              tags := none
              timestamp := some (.jnum 9) }] :=
  createMemory_synthesizes_metadata "knowledge" embedConst 9 [] memKnow false rKnow
    rfl rfl rfl

/-! ### C7 — type-to-partition routing -/

/-- C7: every record persisted by a non-duplicate `createMemory` is created
under `getTableNameForType` of its final metadata type, and that map sends
`document`/`fragment` to `knowledge`, `message` to `messages`, `fact` to
`facts`, and everything else to the manager's own partition name. -/
theorem createMemory_routes_by_type (tableName : String) (embed : Embedder) (now : Int)
    (store : StoreState) (memory : Memory) (unique : Bool) (r : CreateResult)
    (hdup : dbGetMemoryById store memory.id = none)
    (hok : createMemoryModel tableName embed now store memory unique = Except.ok r) :
    (r.createCalls.map fun c => (c.1.content.metadata, c.2.1)) =
      [(some (finalMetadata tableName memory now),
        getTableNameForType tableName (finalMetadata tableName memory now).type)] ∧
    getTableNameForType tableName (some (.jstr "document")) = "knowledge" ∧
    getTableNameForType tableName (some (.jstr "fragment")) = "knowledge" ∧
    getTableNameForType tableName (some (.jstr "message")) = "messages" ∧
    getTableNameForType tableName (some (.jstr "fact")) = "facts" ∧
    ∀ ty : Option JSValue, typeMember ty = false →
      getTableNameForType tableName ty = tableName := by
  obtain ⟨hval, emb, hcase, hcalls, hst⟩ :=
    createMemoryModel_ok_char tableName embed now store memory unique r hdup hok
  refine ⟨?_, ?_, ?_, ?_, ?_, ?_⟩
  · rw [hcalls]
    simp [persistedMemory]
  · unfold getTableNameForType
    rw [if_pos (Or.inl rfl)]
  · unfold getTableNameForType
    rw [if_pos (Or.inr rfl)]
  · unfold getTableNameForType
    rw [if_neg (by decide), if_pos rfl]
  · unfold getTableNameForType
    rw [if_neg (by decide), if_neg (by decide), if_pos rfl]
  · intro ty hty
    unfold getTableNameForType
    split_ifs with g1 g2 g3
    · rcases g1 with g | g <;> rw [g] at hty <;> exact absurd hty (by decide)
    · rw [g2] at hty
      exact absurd hty (by decide)
    · rw [g3] at hty
      exact absurd hty (by decide)
    · rfl

/-- A memory carrying the fully supplied `mdAllTruthy` (type `fact`),
already embedded. -/
def memFact : Memory := ⟨8, some 10, 2, ⟨"txt", some mdAllTruthy⟩, some [5]⟩

/-- The result of `createMemory` on `memFact`: routed to `facts`. -/
def rFact : CreateResult := ⟨[("facts", memFact)], [(memFact, "facts", false)], []⟩

/-- C7 witness: `memFact` (type `fact`) routes to the `facts` partition and
an unknown type falls back to the manager's partition. -/
theorem createMemory_routes_by_type_witness :
    (rFact.createCalls.map fun c => (c.1.content.metadata, c.2.1)) =
      [(some mdAllTruthy, "facts")] ∧
    getTableNameForType "messages" (some (.jstr "custom")) = "messages" := by
  have h := createMemory_routes_by_type "messages" embedConst 7 [] memFact false rFact rfl rfl
  refine ⟨?_, h.2.2.2.2.2 (some (.jstr "custom")) (by decide)⟩
  have h1 := h.1
  have e : finalMetadata "messages" memFact 7 = mdAllTruthy := by decide
  rw [e] at h1
  have e2 : getTableNameForType "messages" mdAllTruthy.type = "facts" := by decide
  rw [e2] at h1
  exact h1

/-! ### C4 — which supplied metadata fields survive createMemory -/

/-- A metadata with the explicit (falsy) timestamp `0`. -/
def mdZeroTs : KnowledgeMetadata :=
  ⟨some (.jstr "fact"), none, none, none, none, none, some (.jnum 0)⟩

/-- A memory carrying `mdZeroTs`, already embedded. -/
def memZeroTs : Memory := ⟨5, none, 2, ⟨"t", some mdZeroTs⟩, some [1]⟩

/-- C4 counterexample: the caller supplies `timestamp: 0` explicitly and the
metadata passes validation, yet the persisted record carries
`timestamp = 7` (the current time): the explicit value was overwritten. -/
theorem createMemory_overwrites_falsy_timestamp :
    mdZeroTs.timestamp = some (.jnum 0) ∧
    (createMemoryModel "messages" embedConst 7 [] memZeroTs false).toOption.map
        (fun r => r.createCalls.map fun c => c.1.content.metadata.map (·.timestamp))
      = some [some (some (.jnum 7))] ∧
    (some (JSValue.jnum 7) : Option JSValue) ≠ some (.jnum 0) :=
  ⟨rfl, rfl, by decide⟩

/-- C4 (amended): for a non-duplicate memory with supplied, valid metadata,
the persisted metadata is the backfill of the supplied one, which keeps
`type`, `sourceId`, `chunkIndex`, `tags` always, keeps `timestamp`,
`scope`, `source` whenever their supplied value is truthy, and fills only
absent-or-falsy fields with the step-2 defaults. -/
theorem createMemory_backfills_only_falsy (tableName : String) (embed : Embedder) (now : Int)
    (store : StoreState) (memory : Memory) (unique : Bool) (r : CreateResult)
    (md : KnowledgeMetadata)
    (hmd : memory.content.metadata = some md)
    (hdup : dbGetMemoryById store memory.id = none)
    (hok : createMemoryModel tableName embed now store memory unique = Except.ok r) :
    (r.createCalls.map fun c => c.1.content.metadata) =
      [some (backfillMetadata tableName memory now md)] ∧
    (backfillMetadata tableName memory now md).type = md.type ∧
    (backfillMetadata tableName memory now md).sourceId = md.sourceId ∧
    (backfillMetadata tableName memory now md).chunkIndex = md.chunkIndex ∧
    (backfillMetadata tableName memory now md).tags = md.tags ∧
    (optTruthy md.timestamp = true →
      (backfillMetadata tableName memory now md).timestamp = md.timestamp) ∧
    (optTruthy md.scope = true →
      (backfillMetadata tableName memory now md).scope = md.scope) ∧
    (optTruthy md.source = true →
      (backfillMetadata tableName memory now md).source = md.source) := by
  obtain ⟨hval, emb, hcase, hcalls, hst⟩ :=
    createMemoryModel_ok_char tableName embed now store memory unique r hdup hok
  have hinit : initialMetadata tableName memory now = md := by
    unfold initialMetadata
    rw [hmd]
  refine ⟨?_, backfill_type tableName memory now md, backfill_sourceId tableName memory now md,
    backfill_chunkIndex tableName memory now md, backfill_tags tableName memory now md,
    fun h => by rw [backfill_timestamp, if_pos h],
    fun h => by rw [backfill_scope, if_pos h],
    fun h => by rw [backfill_source, if_pos h]⟩
  rw [hcalls]
  simp only [List.map_cons, List.map_nil, persistedMemory]
  rw [finalMetadata, hinit]

/-- C4 witness: every field of `mdAllTruthy` (all supplied, all truthy)
survives `createMemory` unchanged. -/
theorem createMemory_backfills_only_falsy_witness :
    (rFact.createCalls.map fun c => c.1.content.metadata) = [some mdAllTruthy] ∧
    (backfillMetadata "messages" memFact 7 mdAllTruthy).timestamp = mdAllTruthy.timestamp ∧
    (backfillMetadata "messages" memFact 7 mdAllTruthy).scope = mdAllTruthy.scope ∧
    (backfillMetadata "messages" memFact 7 mdAllTruthy).source = mdAllTruthy.source := by
  have h := createMemory_backfills_only_falsy "messages" embedConst 7 [] memFact false rFact
    mdAllTruthy rfl rfl rfl
  refine ⟨?_, h.2.2.2.2.2.1 rfl, h.2.2.2.2.2.2.1 rfl, h.2.2.2.2.2.2.2 rfl⟩
  have e : backfillMetadata "messages" memFact 7 mdAllTruthy = mdAllTruthy := by decide
  rw [e] at h
  exact h.1

end MemorySpec
